import Mathlib

/-!
Verification of the training utilities of the neural_sp repository
(speech-recognition research toolkit).

Shallow embedding of:
* `Reporter` (src/neural_sp/bin/train_utils.py): per-step scalar metric
  accumulation with a local train buffer, train/dev history series and a
  step counter;
* `Controller` (src/neural_sp/bin/train_utils.py): learning-rate decay
  (per-epoch and metric-plateau policies) and warm-up schedules;
* `do_eval_cer` (src/examples/csj/s5/exp/metrics/cer.py): corpus-level
  CER/WER aggregation and final normalisation;
* `Dataset.__init__` (src/examples/csj/data/load_dataset.py): dataset
  manifest loading, ordering policy and construction-time validation.

Python floats are idealised as exact rationals (with explicit plus/minus
infinity and NaN markers where the code compares against `float("inf")`);
the square-root based warm-up schedule is embedded over the reals.
Fallible code paths (Python exceptions) are modelled with `Option`/`Except`
results.  External I/O (matplotlib, tensorboard, logging sinks, file
reads/writes) is outside the model; emitted warnings are returned as data.
-/

namespace NeuralSP

/-! ## Scalar values

A Python float as observed by `Reporter.add`: a finite value, one of the
two infinities (the code compares `v == float("inf")` and
`v == -float("inf")`), or NaN (produced by `np.mean` on degenerate input).
-/

inductive V where
  | fin (q : ℚ)
  | posInf
  | negInf
  | nan
  deriving DecidableEq, Repr

/-- IEEE-style addition on `V`, matching how `np.mean` sums a buffer:
finite values add exactly, an infinity absorbs finite values, opposite
infinities (and NaN) give NaN. -/
def vadd : V → V → V
  | .nan, _ => .nan
  | _, .nan => .nan
  | .posInf, .negInf => .nan
  | .negInf, .posInf => .nan
  | .posInf, _ => .posInf
  | _, .posInf => .posInf
  | .negInf, _ => .negInf
  | _, .negInf => .negInf
  | .fin a, .fin b => .fin (a + b)

/-- Sum of a buffer, as `np.mean` computes it (starting from 0). -/
def vsum (l : List V) : V :=
  l.foldl vadd (V.fin 0)

/-- Division of a buffer sum by the (positive) buffer length. -/
def vdivNat : V → ℕ → V
  | .fin q, n => .fin (q / (n : ℚ))
  | .posInf, _ => .posInf
  | .negInf, _ => .negInf
  | .nan, _ => .nan

/-- `np.mean` on a buffer; the empty buffer yields NaN. -/
def vmean (l : List V) : V :=
  if l.length = 0 then .nan else vdivNat (vsum l) l.length

/-! ## Reporter (train_utils.py lines 32-106)

`Reporter.__init__` also opens a tensorboard writer and remembers a save
path; both are external I/O and outside the model.  The observation
dictionaries `obs_train`, `obs_train_local` and `obs_dev` each map the
fixed categories `loss`/`acc`/`ppl` to an insertion-ordered dictionary
from metric name to a list of recorded values.
-/

inductive Cat where
  | loss
  | acc
  | ppl
  deriving DecidableEq, Repr

/-- The spelling of a category key, as it occurs before the dot in an
observation key such as `loss.total`. -/
def catName : Cat → String
  | .loss => "loss"
  | .acc => "acc"
  | .ppl => "ppl"

/-- Category lookup: the three observation dictionaries have exactly the
keys `loss`, `acc`, `ppl`; any other category string raises `KeyError`
(modelled by `none`). -/
def parseCat (s : String) : Option Cat :=
  if s = "loss" then some .loss
  else if s = "acc" then some .acc
  else if s = "ppl" then some .ppl
  else none

/-- Splitting a character list at every `'.'` (helper for `splitOnDot`). -/
def splitCharsDot : List Char → List (List Char)
  | [] => [[]]
  | c :: t =>
    let r := splitCharsDot t
    if c = '.' then [] :: r
    else
      match r with
      | [] => [[c]]
      | h :: t2 => (c :: h) :: t2

/-- Python's `k.split('.')`: every maximal (possibly empty) run between
dots, e.g. `"loss.total"` gives `["loss", "total"]` and `"ab"` gives
`["ab"]`. -/
def splitOnDot (s : String) : List String :=
  (splitCharsDot s.data).map String.mk

/-- An insertion-ordered Python dict from metric name to value list. -/
abbrev NameMap := List (String × List V)

/-- `d[n]`, or `none` for a `KeyError`. -/
def lookupNM : NameMap → String → Option (List V)
  | [], _ => none
  | (a, l) :: rest, n => if a = n then some l else lookupNM rest n

/-- `if n not in d: d[n] = []` followed by `d[n].append(v)`. -/
def appendNM : NameMap → String → V → NameMap
  | [], n, v => [(n, [v])]
  | (a, l) :: rest, n, v =>
    if a = n then (a, l ++ [v]) :: rest else (a, l) :: appendNM rest n v

/-- `if n not in d: d[n] = []` alone (train_utils.py lines 77-78). -/
def ensureNM : NameMap → String → NameMap
  | [], n => [(n, [])]
  | (a, l) :: rest, n =>
    if a = n then (a, l) :: rest else (a, l) :: ensureNM rest n

/-- One observation dictionary: `{'loss': {}, 'acc': {}, 'ppl': {}}`. -/
structure CatMaps where
  loss : NameMap
  acc : NameMap
  ppl : NameMap
  deriving DecidableEq, Repr

def emptyCats : CatMaps := ⟨[], [], []⟩

def CatMaps.get (m : CatMaps) : Cat → NameMap
  | .loss => m.loss
  | .acc => m.acc
  | .ppl => m.ppl

def CatMaps.set (m : CatMaps) : Cat → NameMap → CatMaps
  | .loss, d => { m with loss := d }
  | .acc, d => { m with acc := d }
  | .ppl, d => { m with ppl := d }

structure Reporter where
  /-- the source calls this field `_step` -/
  stepCount : ℕ
  obs_train : CatMaps
  obs_train_local : CatMaps
  obs_dev : CatMaps
  steps : List ℕ
  deriving DecidableEq, Repr

/-- The state `Reporter.__init__` produces (save path and tensorboard
writer are external). -/
def initReporter : Reporter :=
  ⟨0, emptyCats, emptyCats, emptyCats, []⟩

/-- Python exceptions escaping `Reporter.add`. -/
inductive RepErr where
  | valueError
  | keyError (s : String)
  deriving DecidableEq, Repr

/-- One iteration of the `for k, v in observation.items()` loop of
`Reporter.add` (train_utils.py lines 62-93).  Returns the mutated
reporter, the warnings logged, and the exception raised, if any.
Mutations performed before an exception is raised persist, as they do on
the Python object. -/
def addOne (r : Reporter) (k : String) (v : Option V) (is_eval : Bool) :
    Reporter × List String × Option RepErr :=
  match v with
  | none => (r, [], none)
  | some v =>
    -- category, name = k.split('.')  (ValueError unless exactly two parts)
    match splitOnDot k with
    | [c, n] =>
      -- inf check happens before any dictionary access (lines 68-69)
      let ws : List String := if v = V.posInf ∨ v = V.negInf then [k] else []
      match parseCat c with
      | none => (r, ws, some (.keyError c))
      | some cat =>
        if !is_eval then
          (({ r with obs_train_local := r.obs_train_local.set cat (appendNM (r.obs_train_local.get cat) n v) }), ws, none)
        else
          -- lines 77-78: ensure the key exists in obs_train first
          let r1 := { r with obs_train := r.obs_train.set cat (ensureNM (r.obs_train.get cat) n) }
          -- line 79-80: np.mean(self.obs_train_local[category][name]) (KeyError if absent)
          match lookupNM (r1.obs_train_local.get cat) n with
          | none => (r1, ws, some (.keyError n))
          | some buf =>
            let r2 := { r1 with obs_train := r1.obs_train.set cat (appendNM (r1.obs_train.get cat) n (vmean buf)) }
            let r3 := { r2 with obs_dev := r2.obs_dev.set cat (appendNM (r2.obs_dev.get cat) n v) }
            (r3, ws, none)
    | _ => (r, [], some .valueError)

/-- `Reporter.add` over the whole observation dict (insertion-ordered
association list; `None` values are skipped).  Processing stops at the
first exception. -/
def Reporter.add (r : Reporter) : List (String × Option V) → Bool →
    Reporter × List String × Option RepErr
  | [], _ => (r, [], none)
  | (k, v) :: rest, is_eval =>
    match addOne r k v is_eval with
    | (r1, w1, some e) => (r1, w1, some e)
    | (r1, w1, none) =>
      let res := Reporter.add r1 rest is_eval
      (res.1, w1 ++ res.2.1, res.2.2)

/-- `Reporter.step` (train_utils.py lines 100-106). -/
def Reporter.step (r : Reporter) (is_eval : Bool) : Reporter :=
  let r1 := { r with stepCount := r.stepCount + 1 }
  if is_eval then
    { r1 with steps := r1.steps ++ [r1.stepCount], obs_train_local := emptyCats }
  else r1

/-! ## Learning-rate Controller (train_utils.py lines 150-277)

The numeric fields are generic in a type `α` so that the decay logic
(pure field arithmetic and comparisons) can be studied over `ℚ`, while the
warm-up schedule — which needs real powers — is instantiated over `ℝ`.
-/

/-- The `decay_type` string; only `'metric'` and `'epoch'` select a branch
in `decay_lr`, and `'warmup'` is the remaining value the class is used
with. -/
inductive DecayType where
  | epoch
  | metric
  | warmup
  deriving DecidableEq, Repr

/-- One entry of `optimizer.param_groups`.  Besides the learning rate and
the epsilon that the code touches, a torch parameter group carries further
hyper-parameters; `weight_decay` stands for those, to make frame
conditions expressible. -/
structure ParamGroup (α : Type) where
  lr : α
  eps : α
  weight_decay : α
  deriving DecidableEq, Repr

/-- The externally-owned optimizer: its class (only
`isinstance(optimizer, torch.optim.Adadelta)` is inspected) and its
parameter groups. -/
structure Optimizer (α : Type) where
  isAdadelta : Bool
  param_groups : List (ParamGroup α)
  deriving DecidableEq, Repr

/-- The fields `Controller.__init__` stores (train_utils.py 170-196). -/
structure Controller (α : Type) where
  lr_max : α
  decay_type : DecayType
  decay_start_epoch : ℕ
  decay_rate : α
  decay_patient_epoch : ℕ
  not_improved_epoch : ℕ
  lower_better : Bool
  best_value : α
  lr_init : α
  warmup_start_lr : α
  warmup_nsteps : ℕ
  deriving DecidableEq, Repr

/-- `Controller.__init__` (train_utils.py lines 170-196), over the reals
because `lr_init` may be `factor * model_size ** -0.5`.  The trailing
`assert warmup_nsteps > 0` for `decay_type == 'warmup'` is modelled by
returning `none` (AssertionError). -/
noncomputable def mkController (learning_rate : ℝ) (decay_type : DecayType)
    (decay_start_epoch : ℕ) (decay_rate : ℝ) (decay_patient_epoch : ℕ)
    (lower_better : Bool) (best_value : ℝ) (model_size : ℕ)
    (warmup_start_learning_rate : ℝ) (warmup_nsteps : ℕ) (factor : ℝ) :
    Option (Controller ℝ) :=
  let lr_init : ℝ :=
    if warmup_nsteps > 0 then
      if warmup_start_learning_rate > 0 then warmup_start_learning_rate
      else factor * (model_size : ℝ) ^ (-(1 : ℝ) / 2)
    else learning_rate
  if decay_type = .warmup ∧ ¬ warmup_nsteps > 0 then none
  else
    some
      { lr_max := learning_rate
        decay_type := decay_type
        decay_start_epoch := decay_start_epoch
        decay_rate := decay_rate
        decay_patient_epoch := decay_patient_epoch
        not_improved_epoch := 0
        lower_better := lower_better
        best_value := best_value
        lr_init := lr_init
        warmup_start_lr := warmup_start_learning_rate
        warmup_nsteps := warmup_nsteps }

/-- The optimizer-update loop shared by both decay branches
(train_utils.py lines 234-239 and 244-249): write the new rate into
every parameter group — into `eps` for Adadelta, into `lr` otherwise. -/
def writeDecay {α : Type} (opt : Optimizer α) (x : α) : Optimizer α :=
  { opt with param_groups := opt.param_groups.map (fun g => if opt.isAdadelta then { g with eps := x } else { g with lr := x }) }

/-- `Controller.decay_lr` (train_utils.py lines 198-251), over `ℚ`.
The Python method mutates `self` and `optimizer` and returns
`(optimizer, lr)`; the embedding returns the mutated controller alongside.
-/
def decay_lr (c : Controller ℚ) (opt : Optimizer ℚ) (lr : ℚ) (epoch : ℕ)
    (value : ℚ) : Controller ℚ × Optimizer ℚ × ℚ :=
  -- if not self.lower_better: value *= -1
  let v := if c.lower_better then value else -value
  if epoch < c.decay_start_epoch then
    if c.decay_type = .metric ∧ v < c.best_value then
      ({ c with best_value := v }, opt, lr)
    else (c, opt, lr)
  else
    match c.decay_type with
    | .metric =>
      if v < c.best_value then
        -- improved
        ({ c with best_value := v, not_improved_epoch := 0 }, opt, lr)
      else if c.not_improved_epoch < c.decay_patient_epoch then
        -- not improved, but the learning rate is not decayed yet
        ({ c with not_improved_epoch := c.not_improved_epoch + 1 }, opt, lr)
      else
        -- not improved, and the learning rate is decayed
        ({ c with not_improved_epoch := 0 }, writeDecay opt (lr * c.decay_rate), lr * c.decay_rate)
    | .epoch =>
      (c, writeDecay opt (lr * c.decay_rate), lr * c.decay_rate)
    | .warmup => (c, opt, lr)

/-- `Controller.warmup_lr` (train_utils.py lines 253-277), over `ℝ`
(`np.power(x, -0.5)` is real exponentiation; the embedding uses `rpow`,
which departs from numpy only at the never-used base 0).  Unlike
`decay_lr`, the write-back loop stores into the `lr` field of every
parameter group unconditionally, with no Adadelta case, and `self` is not
mutated. -/
noncomputable def warmup_lr (c : Controller ℝ) (opt : Optimizer ℝ) (lr : ℝ) (step : ℕ) :
    Optimizer ℝ × ℝ :=
  let lr2 : ℝ :=
    if c.warmup_start_lr > 0 then
      -- linearly increase
      (c.lr_max - c.warmup_start_lr) / (c.warmup_nsteps : ℝ) * (step : ℝ) + c.lr_init
    else
      -- based on the original transformer paper
      c.lr_init * min ((step : ℝ) ^ (-(1 : ℝ) / 2)) ((step : ℝ) * (c.warmup_nsteps : ℝ) ^ (-(3 : ℝ) / 2))
  ({ opt with param_groups := opt.param_groups.map (fun g => { g with lr := lr2 }) }, lr2)

/-- Feeding `decay_lr` a sequence of `(epoch, value)` observations,
threading the mutated controller, optimizer and rate. -/
def decayRun (c : Controller ℚ) (opt : Optimizer ℚ) (lr : ℚ) :
    List (ℕ × ℚ) → Controller ℚ × Optimizer ℚ × ℚ
  | [] => (c, opt, lr)
  | (e, v) :: rest =>
    let s := decay_lr c opt lr e v
    decayRun s.1 s.2.1 s.2.2 rest

/-! ## CER/WER aggregation (cer.py, `do_eval_cer`)

Decoding, label conversion and `compute_wer` are external collaborators
(the edit-distance scorer lives outside src/); per-utterance their net
effect on the aggregation state of `do_eval_cer` is a scored tuple
`(rate, substitutions, insertions, deletions)` together with the
reference length, or an exception that the bare `except: pass` swallows.
The embedding therefore takes those per-utterance outcomes as input and
models the accumulation (cer.py lines 126-153) and the final
normalisation (lines 167-178) exactly.
-/

/-- Per-utterance outcome of the scoring `try` blocks.  `none` means the
block raised and was swallowed, in which case the reference length is not
accumulated either (the `num_chars += ...` / `num_words += ...` lines sit
inside the `try`). -/
structure UttScore where
  charScore : Option (ℚ × ℚ × ℚ × ℚ)
  charRefLen : ℕ
  wordScore : Option (ℚ × ℚ × ℚ × ℚ)
  wordRefLen : ℕ

/-- The running sums of `do_eval_cer` (cer.py lines 46-49). -/
structure Tally where
  cer : ℚ
  sub_char : ℚ
  ins_char : ℚ
  del_char : ℚ
  num_chars : ℕ
  wer : ℚ
  sub_word : ℚ
  ins_word : ℚ
  del_word : ℚ
  num_words : ℕ
  deriving DecidableEq, Repr

def tally0 : Tally := ⟨0, 0, 0, 0, 0, 0, 0, 0, 0, 0⟩

/-- One iteration of the per-utterance loop of `do_eval_cer`
(cer.py lines 126-153).  `wb` is the condition
`label_type == 'kanji_wb' or (task_index > 0 and label_type_sub == 'kanji_wb')`,
fixed across the run, which gates the word-level computation. -/
def accUtt (wb : Bool) (t : Tally) (u : UttScore) : Tally :=
  let t1 :=
    if wb then
      match u.wordScore with
      | some s =>
        { t with wer := t.wer + s.1, sub_word := t.sub_word + s.2.1,
                 ins_word := t.ins_word + s.2.2.1, del_word := t.del_word + s.2.2.2,
                 num_words := t.num_words + u.wordRefLen }
      | none => t
    else t
  match u.charScore with
  | some s =>
    { t1 with cer := t1.cer + s.1, sub_char := t1.sub_char + s.2.1,
              ins_char := t1.ins_char + s.2.2.1, del_char := t1.del_char + s.2.2.2,
              num_chars := t1.num_chars + u.charRefLen }
  | none => t1

/-- The normalised rates `do_eval_cer` returns (cer.py lines 180-186 also
divide `sub/ins/del` by the same denominators; `cer` and `wer` stand for
the whole family). -/
structure CerResult where
  cer : ℚ
  wer : ℚ
  deriving DecidableEq, Repr

/-- The final normalisation of `do_eval_cer` (cer.py lines 167-178).
Python evaluates `wer /= num_words` (when the word granularity is active)
before `cer /= num_chars`; a zero denominator raises `ZeroDivisionError`,
modelled by `none`. -/
def finalizeCER (wb : Bool) (t : Tally) : Option CerResult :=
  if wb then
    if t.num_words = 0 then none
    else if t.num_chars = 0 then none
    else some ⟨t.cer / (t.num_chars : ℚ), t.wer / (t.num_words : ℚ)⟩
  else
    -- wer = sub_word = ins_word = del_word = 0
    if t.num_chars = 0 then none
    else some ⟨t.cer / (t.num_chars : ℚ), 0⟩

/-- Whole-set evaluation: accumulate every utterance of the pass, then
normalise. -/
def doEvalCER (wb : Bool) (us : List UttScore) : Option CerResult :=
  finalizeCER wb (us.foldl (accUtt wb) tally0)

/-- Total reference length (characters) actually accumulated. -/
def totalChars (wb : Bool) (us : List UttScore) : ℕ :=
  (us.foldl (accUtt wb) tally0).num_chars

/-- Total reference length (words) actually accumulated. -/
def totalWords (wb : Bool) (us : List UttScore) : ℕ :=
  (us.foldl (accUtt wb) tally0).num_words

/-! ## Dataset construction (load_dataset.py, `Dataset.__init__`)

`pd.read_csv` is external I/O; the embedding takes the rows the manifest
file holds as an argument.  `DatasetBase.__init__` receives only the
vocabulary file path, so the flag handling below is the whole
construction.
-/

/-- One manifest row (columns `frame_num`, `input_path`, `transcript`). -/
structure Row where
  frame_num : ℕ
  input_path : String
  transcript : String
  deriving DecidableEq, Repr

/-- The label-to-index mapper chosen by the constructor. -/
inductive MapFn where
  | word2idx
  | char2idx
  deriving DecidableEq, Repr

/-- Exceptions that `Dataset.__init__` can raise.  The constructor never
raises `configurationError`: the constructor body contains no such check
(the docstring instead notes that `shuffle` is disabled when `sort_utt`
is true).  The only failure in the body itself is the `NameError` on
`dataset_path` when `label_type` matches no family. -/
inductive DatasetInitError where
  | configurationError
  | nameError
  deriving DecidableEq, Repr

/-- Whether `p` occurs as a contiguous sublist of the second list. -/
def subList (p : List Char) : List Char → Bool
  | [] => p.isEmpty
  | c :: t => p.isPrefixOf (c :: t) || subList p t

/-- Python's `pat in s` substring test. -/
def strContains (s pat : String) : Bool :=
  subList pat.data s.data

/-- The arguments of `Dataset.__init__` (load_dataset.py lines 24-30). -/
structure DatasetArgs where
  model_type : String
  data_type : String
  data_size : String
  label_type : String
  batch_size : ℕ
  max_epoch : Option ℕ
  splice : ℕ
  num_stack : ℕ
  num_skip : ℕ
  shuffle : Bool
  sort_utt : Bool
  reverse : Bool
  sort_stop_epoch : Option ℕ
  num_gpus : ℕ
  use_cuda : Bool
  volatile : Bool
  save_format : String
  deriving DecidableEq, Repr

/-- The state `Dataset.__init__` leaves behind (load_dataset.py lines
57-115). -/
structure DatasetState where
  is_test : Bool
  model_type : String
  data_type : String
  data_size : String
  label_type : String
  batch_size : ℕ
  max_epoch : Option ℕ
  splice : ℕ
  num_stack : ℕ
  num_skip : ℕ
  shuffle : Bool
  sort_utt : Bool
  sort_stop_epoch : Option ℕ
  num_gpus : ℕ
  use_cuda : Bool
  volatile : Bool
  save_format : String
  dataset_path : String
  map_fn : MapFn
  df : List Row
  df_index : List ℕ
  rest : List ℕ
  deriving DecidableEq, Repr

/-- Stable insertion of a row into a sorted list (used to model
`pd.sort_values`; the source's default quicksort leaves the order of
equal keys unspecified, so any comparison-correct sort is faithful). -/
def insertRow (le : Row → Row → Bool) (a : Row) : List Row → List Row
  | [] => [a]
  | b :: rest => if le a b then a :: b :: rest else b :: insertRow le a rest

def sortRows (le : Row → Row → Bool) (l : List Row) : List Row :=
  l.foldr (insertRow le) []

/-- `Dataset.__init__` (load_dataset.py lines 24-115).  `rows` stands for
the contents of the manifest CSV that `pd.read_csv` loads. -/
def mkDataset (a : DatasetArgs) (rows : List Row) :
    Except DatasetInitError DatasetState :=
  let is_test := a.data_type = "eval1" ∨ a.data_type = "eval2" ∨ a.data_type = "eval3"
  -- dataset_path selection by substring tests on label_type (lines 82-93);
  -- a label_type matching no family leaves dataset_path unbound (NameError
  -- at its first use).
  let base := "/n/sd8/inaguma/corpus/csj/dataset/" ++ a.save_format ++ "/" ++ a.data_size ++ "/" ++ a.data_type ++ "/"
  let path? : Option String :=
    if strContains a.label_type "kana" then some (base ++ "dataset_kana.csv")
    else if strContains a.label_type "kanji" ∨ strContains a.label_type "word" then some (base ++ "dataset_kanji.csv")
    else if strContains a.label_type "phone" then some (base ++ "dataset_phone.csv")
    else none
  let map_fn := if strContains a.label_type "word" then MapFn.word2idx else MapFn.char2idx
  match path? with
  | none => .error .nameError
  | some dataset_path =>
    -- sort paths to input and label (lines 106-110)
    let df :=
      if a.sort_utt then
        sortRows (fun x y => if a.reverse then y.frame_num ≤ x.frame_num else x.frame_num ≤ y.frame_num) rows
      else
        sortRows (fun x y => x.input_path ≤ y.input_path) rows
    .ok
      { is_test := is_test
        model_type := a.model_type
        data_type := a.data_type
        data_size := a.data_size
        label_type := a.label_type
        batch_size := a.batch_size * a.num_gpus
        max_epoch := a.max_epoch
        splice := a.splice
        num_stack := a.num_stack
        num_skip := a.num_skip
        shuffle := a.shuffle
        sort_utt := a.sort_utt
        sort_stop_epoch := a.sort_stop_epoch
        num_gpus := a.num_gpus
        use_cuda := a.use_cuda
        volatile := a.volatile
        save_format := a.save_format
        dataset_path := dataset_path
        map_fn := map_fn
        df := df
        df_index := List.replicate df.length 0
        rest := List.range df.length }

/-! ## Helper lemmas -/

theorem parseCat_catName (c : Cat) : parseCat (catName c) = some c := by
  cases c <;> rfl

theorem lookup_appendNM (m : NameMap) (n : String) (v : V) :
    lookupNM (appendNM m n v) n = some ((lookupNM m n).getD [] ++ [v]) := by
  induction m with
  | nil => simp [lookupNM, appendNM]
  | cons p rest ih =>
    obtain ⟨a, l⟩ := p
    by_cases h : a = n
    · simp [lookupNM, appendNM, h]
    · simp [lookupNM, appendNM, h, ih]

theorem lookup_ensureNM (m : NameMap) (n : String) :
    lookupNM (ensureNM m n) n = some ((lookupNM m n).getD []) := by
  induction m with
  | nil => simp [lookupNM, ensureNM]
  | cons p rest ih =>
    obtain ⟨a, l⟩ := p
    by_cases h : a = n
    · simp [lookupNM, ensureNM, h]
    · simp [lookupNM, ensureNM, h, ih]

theorem decay_lr_epoch_ge (c : Controller ℚ) (opt : Optimizer ℚ) (lr : ℚ)
    (e : ℕ) (v : ℚ) (hdt : c.decay_type = .epoch)
    (he : c.decay_start_epoch ≤ e) :
    decay_lr c opt lr e v = (c, writeDecay opt (lr * c.decay_rate), lr * c.decay_rate) := by
  simp [decay_lr, hdt, Nat.not_lt.mpr he]

theorem decayRun_epoch (c : Controller ℚ) (l : List (ℕ × ℚ))
    (hdt : c.decay_type = .epoch) :
    ∀ (opt : Optimizer ℚ) (lr : ℚ), (∀ p ∈ l, c.decay_start_epoch ≤ p.1) →
    (decayRun c opt lr l).2.2 = lr * c.decay_rate ^ l.length := by
  induction l with
  | nil => intro opt lr _; simp [decayRun]
  | cons p rest ih =>
    intro opt lr hall
    obtain ⟨e, v⟩ := p
    have h1 := decay_lr_epoch_ge c opt lr e v hdt (hall (e, v) (List.mem_cons_self _ _))
    have h2 : ∀ p ∈ rest, c.decay_start_epoch ≤ p.1 :=
      fun p hp => hall p (List.mem_cons_of_mem _ hp)
    calc (decayRun c opt lr ((e, v) :: rest)).2.2
        = (decayRun c (writeDecay opt (lr * c.decay_rate)) (lr * c.decay_rate) rest).2.2 := by
          simp only [decayRun, h1]
      _ = lr * c.decay_rate * c.decay_rate ^ rest.length := ih _ _ h2
      _ = lr * c.decay_rate ^ ((e, v) :: rest).length := by
          simp [List.length_cons, pow_succ]; ring

/-! ## Claim C1 -/

/-- Sum of per-utterance character error counts actually accumulated. -/
def sumCer (wb : Bool) (us : List UttScore) : ℚ :=
  (us.foldl (accUtt wb) tally0).cer

/-- A pass whose only utterance was skipped by the scorer: nothing is
accumulated, the total reference length is 0. -/
def us0 : List UttScore := [⟨none, 0, none, 0⟩]

/-- One successfully scored utterance: 1 edit against a 3-character
reference, no word-level scoring. -/
def us1 : List UttScore := [⟨some (1, 1, 0, 0), 3, none, 0⟩]

/-- C1 counterexample: an evaluation pass whose accumulated reference
length is zero does NOT report a rate of 0 — the final `cer /= num_chars`
raises `ZeroDivisionError` (modelled by `none`). -/
theorem claim_C1_counterexample :
    totalChars false us0 = 0 ∧ doEvalCER false us0 = none := by
  exact ⟨rfl, rfl⟩

/-- C1 (amended): when the reference length accumulated over the whole
set is zero (characters for any run, or words for a run with the word
granularity active), `do_eval_cer` raises `ZeroDivisionError` instead of
reporting 0; the word-level rate is reported as 0 exactly when the word
granularity is inactive (`wb = false`), irrespective of reference
length. -/
theorem claim_C1_amended (wb : Bool) (us : List UttScore) :
    (totalChars wb us = 0 → doEvalCER wb us = none)
    ∧ (wb = true → totalWords wb us = 0 → doEvalCER wb us = none)
    ∧ (wb = false → totalChars wb us ≠ 0 →
        doEvalCER wb us = some ⟨sumCer wb us / (totalChars wb us : ℚ), 0⟩) := by
  refine ⟨?_, ?_, ?_⟩
  · intro h
    cases wb <;> simp [doEvalCER, finalizeCER, totalChars] at h ⊢ <;> simp [h]
  · intro hwb h
    subst hwb
    simp [doEvalCER, finalizeCER, totalWords] at h ⊢
    simp [h]
  · intro hwb h
    subst hwb
    simp [doEvalCER, finalizeCER, totalChars, sumCer] at h ⊢
    simp [h]

/-- Witness for C1: the zero-length cases indeed return `none` and a
normal pass divides by the accumulated length. -/
theorem claim_C1_witness :
    doEvalCER false us0 = none
    ∧ doEvalCER true us0 = none
    ∧ doEvalCER false us1 = some ⟨sumCer false us1 / (totalChars false us1 : ℚ), 0⟩ :=
  ⟨(claim_C1_amended false us0).1 rfl,
   (claim_C1_amended true us0).2.1 rfl rfl,
   (claim_C1_amended false us1).2.2 rfl (by decide)⟩

/-! ## Claim C2 -/

/-- An epoch-decay controller: initial rate 1, decay rate 1/2, decay
starting at epoch 3 (the remaining fields are as `Controller.__init__`
stores them for these arguments). -/
def cEpochEx : Controller ℚ := ⟨1, .epoch, 3, 1/2, 1, 0, true, 10000, 1, 0, 0⟩

/-- A parameter-group list for a non-Adadelta optimizer. -/
def optQ0 : Optimizer ℚ := ⟨false, [⟨7, 9, 11⟩]⟩

/-- C2: with `decay_type = 'epoch'`, after `N` calls of `decay_lr` at
epochs at least `decay_start_epoch` the rate is
`initial_rate * decay_rate ^ N`, and a call before `decay_start_epoch`
changes nothing. -/
theorem claim_C2 (c : Controller ℚ) (opt : Optimizer ℚ) (lr : ℚ)
    (l : List (ℕ × ℚ)) (hdt : c.decay_type = .epoch)
    (hall : ∀ p ∈ l, c.decay_start_epoch ≤ p.1) :
    (decayRun c opt lr l).2.2 = lr * c.decay_rate ^ l.length
    ∧ ∀ e v, e < c.decay_start_epoch → decay_lr c opt lr e v = (c, opt, lr) := by
  refine ⟨decayRun_epoch c l hdt opt lr hall, ?_⟩
  intro e v he
  simp [decay_lr, hdt, he]

/-- Witness for C2: 3 post-start epochs take the rate from 1 to
`1 * (1/2)^3`, and the call at epoch 2 (before start epoch 3) returns
everything unchanged. -/
theorem claim_C2_witness :
    (decayRun cEpochEx optQ0 1 [(5, 0), (6, 0), (7, 0)]).2.2 = 1 * (1/2 : ℚ) ^ 3
    ∧ decay_lr cEpochEx optQ0 1 2 0 = (cEpochEx, optQ0, 1) := by
  have h := claim_C2 cEpochEx optQ0 1 [(5, 0), (6, 0), (7, 0)] rfl (by decide)
  exact ⟨h.1, h.2 2 0 (by decide)⟩

/-! ## Claim C6 -/

/-- Construction arguments requesting both shuffling and sorting by
utterance length. -/
def args6 : DatasetArgs :=
  ⟨"ctc", "train", "subset", "kana", 4, none, 1, 1, 1, true, true, false, none, 1, false, false, "numpy"⟩

/-- C6 counterexample: constructing a `Dataset` with `shuffle=True` and
`sort_utt=True` does not raise — the constructor completes and no
`ConfigurationError` exists anywhere in its body. -/
theorem claim_C6_counterexample :
    (mkDataset args6 []).isOk = true
    ∧ mkDataset args6 [] ≠ Except.error DatasetInitError.configurationError := by
  have h : (mkDataset args6 []).isOk = true := by decide
  refine ⟨h, fun hc => ?_⟩
  rw [hc] at h
  exact Bool.noConfusion h

/-- C6 (amended): constructing a `Dataset` with both `shuffle=True` and
`sort_utt=True` succeeds without any error; both flags are stored and
sorting takes precedence (the docstring notes shuffle is disabled when
`sort_utt` is true). -/
theorem claim_C6_amended (a : DatasetArgs) (rows : List Row)
    (hsh : a.shuffle = true) (hso : a.sort_utt = true)
    (hl : strContains a.label_type "kana" = true) :
    (mkDataset a rows).isOk = true
    ∧ ∀ d, mkDataset a rows = .ok d → d.shuffle = true ∧ d.sort_utt = true := by
  constructor
  · simp [mkDataset, hl, Except.isOk, Except.toBool]
  · intro d hd
    simp [mkDataset, hl] at hd
    rw [← hd]
    exact ⟨hsh, hso⟩

/-- Witness for C6: the concrete inconsistent request constructs
successfully with both flags stored. -/
theorem claim_C6_witness :
    ((mkDataset args6 []).isOk = true)
    ∧ ((mkDataset args6 []).toOption.map DatasetState.shuffle = some true) := by
  have h := claim_C6_amended args6 [] rfl rfl (by decide)
  refine ⟨h.1, ?_⟩
  match hm : mkDataset args6 [] with
  | .ok d =>
    simp [Except.toOption, (h.2 d hm).1]
  | .error e => rw [hm] at h; exact Bool.noConfusion h.1

/-! ## Claims C8 and C10 -/

theorem CatMaps.get_set (m : CatMaps) (c : Cat) (d : NameMap) :
    (m.set c d).get c = d := by
  cases c <;> rfl

theorem add_singleton (r : Reporter) (k : String) (v : Option V) (ev : Bool) :
    r.add [(k, v)] ev = addOne r k v ev := by
  rcases h : addOne r k v ev with ⟨r1, w1, _ | e⟩ <;> simp [Reporter.add, h]

/-- C8: an observation whose value is plus or minus infinity logs a
warning (the key is emitted) but raises nothing: in the training branch
it is appended to the local buffer like any other value, and in the
evaluation branch (whenever the name is buffered, which is the condition
any finite value needs as well) the method also returns normally and
stores the dev value. -/
theorem claim_C8 (r : Reporter) (c : Cat) (k n : String) (v : V)
    (hk : splitOnDot k = [catName c, n]) (hv : v = V.posInf ∨ v = V.negInf) :
    ((r.add [(k, some v)] false).2.1 = [k]
     ∧ (r.add [(k, some v)] false).2.2 = none
     ∧ lookupNM ((r.add [(k, some v)] false).1.obs_train_local.get c) n
         = some ((lookupNM (r.obs_train_local.get c) n).getD [] ++ [v]))
    ∧ ∀ buf, lookupNM (r.obs_train_local.get c) n = some buf →
        (r.add [(k, some v)] true).2.1 = [k]
        ∧ (r.add [(k, some v)] true).2.2 = none
        ∧ lookupNM ((r.add [(k, some v)] true).1.obs_dev.get c) n
            = some ((lookupNM (r.obs_dev.get c) n).getD [] ++ [v]) := by
  constructor
  · rw [add_singleton]
    rcases hv with hv | hv <;> subst hv <;>
      simp [addOne, hk, parseCat_catName, CatMaps.get_set, lookup_appendNM]
  · intro buf hbuf
    rw [add_singleton]
    rcases hv with hv | hv <;> subst hv <;>
      simp [addOne, hk, parseCat_catName, hbuf, CatMaps.get_set, lookup_appendNM]

/-- Witness for C8: concrete infinite observations on a fresh reporter
(train step) and on a buffered name (eval step). -/
theorem claim_C8_witness :
    ((initReporter.add [("loss.total", some V.posInf)] false).2.1 = ["loss.total"]
     ∧ (initReporter.add [("loss.total", some V.posInf)] false).2.2 = none
     ∧ lookupNM ((initReporter.add [("loss.total", some V.posInf)] false).1.obs_train_local.get .loss) "total"
         = some ((lookupNM (initReporter.obs_train_local.get .loss) "total").getD [] ++ [V.posInf])) := by
  exact (claim_C8 initReporter .loss "loss.total" "total" V.posInf (by decide) (Or.inl rfl)).1

/-- C10: an evaluation-step observation for a name with no buffered
training value raises `KeyError` and stores no dev value; when the name
is buffered, the dev value is accepted and appended. -/
theorem claim_C10 (r : Reporter) (c : Cat) (k n : String) (q : ℚ)
    (hk : splitOnDot k = [catName c, n]) :
    (lookupNM (r.obs_train_local.get c) n = none →
      (r.add [(k, some (V.fin q))] true).2.2 = some (RepErr.keyError n)
      ∧ (r.add [(k, some (V.fin q))] true).1.obs_dev = r.obs_dev)
    ∧ ∀ buf, lookupNM (r.obs_train_local.get c) n = some buf →
      (r.add [(k, some (V.fin q))] true).2.2 = none
      ∧ lookupNM ((r.add [(k, some (V.fin q))] true).1.obs_dev.get c) n
          = some ((lookupNM (r.obs_dev.get c) n).getD [] ++ [V.fin q]) := by
  constructor
  · intro hmiss
    rw [add_singleton]
    simp [addOne, hk, parseCat_catName, hmiss]
  · intro buf hbuf
    rw [add_singleton]
    simp [addOne, hk, parseCat_catName, hbuf, CatMaps.get_set, lookup_appendNM]

/-- Witness for C10: on a fresh reporter, a dev-only observation raises
`KeyError "total"` and `obs_dev` is untouched. -/
theorem claim_C10_witness :
    (initReporter.add [("loss.total", some (V.fin 5))] true).2.2 = some (RepErr.keyError "total")
    ∧ (initReporter.add [("loss.total", some (V.fin 5))] true).1.obs_dev = initReporter.obs_dev :=
  (claim_C10 initReporter .loss "loss.total" "total" 5 (by decide)).1 rfl

/-! ## Claim C7 -/

theorem CatMaps.set_set (m : CatMaps) (c : Cat) (d1 d2 : NameMap) :
    (m.set c d1).set c d2 = m.set c d2 := by
  cases c <;> rfl

theorem emptyCats_get (c : Cat) : emptyCats.get c = [] := by
  cases c <;> rfl

/-- The interleaving the claim describes: three training steps recording
the same key, then one evaluation step recording that key, each add
followed by the matching `step` call. -/
def trainEvalRun (k : String) (q1 q2 q3 qd : ℚ) :
    (Reporter × List String × Option RepErr) × Reporter :=
  let r1 := ((initReporter.add [(k, some (V.fin q1))] false).1).step false
  let r2 := ((r1.add [(k, some (V.fin q2))] false).1).step false
  let r3 := ((r2.add [(k, some (V.fin q3))] false).1).step false
  let a4 := r3.add [(k, some (V.fin qd))] true
  (a4, (a4.1).step true)

/-- C7: after 3 buffered training observations and one evaluation
observation of the same metric name, the evaluation `add` returns
normally, appends the arithmetic mean of the 3 buffered values to the
train-history series and the incoming dev value to the dev-history
series; the following `step(is_eval=True)` appends the current step
count (4) to the x-axis history and clears the local buffer. -/
theorem claim_C7 (c : Cat) (n k : String) (hk : splitOnDot k = [catName c, n])
    (q1 q2 q3 qd : ℚ) :
    (trainEvalRun k q1 q2 q3 qd).1.2.2 = none
    ∧ lookupNM ((trainEvalRun k q1 q2 q3 qd).1.1.obs_train.get c) n
        = some [V.fin ((q1 + q2 + q3) / 3)]
    ∧ lookupNM ((trainEvalRun k q1 q2 q3 qd).1.1.obs_dev.get c) n
        = some [V.fin qd]
    ∧ (trainEvalRun k q1 q2 q3 qd).2.steps = [4]
    ∧ (trainEvalRun k q1 q2 q3 qd).2.obs_train_local = emptyCats := by
  cases c <;>
    simp [trainEvalRun, add_singleton, addOne, hk, parseCat_catName,
      Reporter.step, initReporter, emptyCats, CatMaps.get, CatMaps.set,
      appendNM, ensureNM, lookupNM, vmean, vsum, vadd, vdivNat]

/-- Witness for C7: values 1, 2, 3 buffer to mean 2 and dev value 10 is
stored; the step history records step 4. -/
theorem claim_C7_witness :
    (trainEvalRun "loss.total" 1 2 3 10).1.2.2 = none
    ∧ lookupNM ((trainEvalRun "loss.total" 1 2 3 10).1.1.obs_train.get .loss) "total"
        = some [V.fin ((1 + 2 + 3) / 3)]
    ∧ lookupNM ((trainEvalRun "loss.total" 1 2 3 10).1.1.obs_dev.get .loss) "total"
        = some [V.fin 10]
    ∧ (trainEvalRun "loss.total" 1 2 3 10).2.steps = [4]
    ∧ (trainEvalRun "loss.total" 1 2 3 10).2.obs_train_local = emptyCats :=
  claim_C7 .loss "total" "loss.total" (by decide) 1 2 3 10

/-! ## Claim C3

Branch lemmas for `decay_lr` with `decay_type = 'metric'` and
`lower_better = True`, at an epoch past the start epoch.
-/

theorem decay_metric_improve (c : Controller ℚ) (opt : Optimizer ℚ)
    (lr : ℚ) (e : ℕ) (v : ℚ) (hdt : c.decay_type = .metric)
    (hlb : c.lower_better = true) (he : c.decay_start_epoch ≤ e)
    (hv : v < c.best_value) :
    decay_lr c opt lr e v
      = ({ c with best_value := v, not_improved_epoch := 0 }, opt, lr) := by
  simp [decay_lr, hdt, hlb, Nat.not_lt.mpr he, hv]

theorem decay_metric_patient (c : Controller ℚ) (opt : Optimizer ℚ)
    (lr : ℚ) (e : ℕ) (v : ℚ) (hdt : c.decay_type = .metric)
    (hlb : c.lower_better = true) (he : c.decay_start_epoch ≤ e)
    (hv : ¬ v < c.best_value)
    (hcnt : c.not_improved_epoch < c.decay_patient_epoch) :
    decay_lr c opt lr e v
      = ({ c with not_improved_epoch := c.not_improved_epoch + 1 }, opt, lr) := by
  simp [decay_lr, hdt, hlb, Nat.not_lt.mpr he, hv, hcnt]

theorem decay_metric_decay (c : Controller ℚ) (opt : Optimizer ℚ)
    (lr : ℚ) (e : ℕ) (v : ℚ) (hdt : c.decay_type = .metric)
    (hlb : c.lower_better = true) (he : c.decay_start_epoch ≤ e)
    (hv : ¬ v < c.best_value)
    (hcnt : ¬ c.not_improved_epoch < c.decay_patient_epoch) :
    decay_lr c opt lr e v
      = ({ c with not_improved_epoch := 0 },
         writeDecay opt (lr * c.decay_rate), lr * c.decay_rate) := by
  simp [decay_lr, hdt, hlb, Nat.not_lt.mpr he, hv, hcnt]

/-- Before the start epoch a metric-policy call only updates the best
value on improvement (counter and rate untouched). -/
theorem decay_metric_before (c : Controller ℚ) (opt : Optimizer ℚ)
    (lr : ℚ) (e : ℕ) (v : ℚ) (hdt : c.decay_type = .metric)
    (hlb : c.lower_better = true) (he : e < c.decay_start_epoch)
    (hv : v < c.best_value) :
    decay_lr c opt lr e v = ({ c with best_value := v }, opt, lr) := by
  simp [decay_lr, hdt, hlb, he, hv]

/-- A strictly decreasing run whose first value beats the current best
keeps improving the best value and never touches the learning rate,
whatever the epochs are. -/
theorem decayRun_strictDesc (l : List (ℕ × ℚ)) :
    ∀ (c : Controller ℚ) (opt : Optimizer ℚ) (lr : ℚ),
    c.decay_type = .metric → c.lower_better = true →
    l.Chain' (fun p q => q.2 < p.2) →
    (∀ p ∈ l.head?, p.2 < c.best_value) →
    (decayRun c opt lr l).2.2 = lr ∧ (decayRun c opt lr l).2.1 = opt := by
  induction l with
  | nil => intro c opt lr _ _ _ _; exact ⟨rfl, rfl⟩
  | cons p rest ih =>
    intro c opt lr hdt hlb hchain hhead
    obtain ⟨e, v⟩ := p
    have hv : v < c.best_value := hhead (e, v) rfl
    by_cases he : e < c.decay_start_epoch
    · have h1 := decay_metric_before c opt lr e v hdt hlb he hv
      have h2 := ih { c with best_value := v } opt lr hdt hlb
        (List.Chain'.tail hchain)
        (by intro p hp
            cases rest with
            | nil => simp at hp
            | cons p2 t =>
              simp only [List.head?_cons, Option.mem_def, Option.some.injEq] at hp
              subst hp
              exact (List.chain'_cons.mp hchain).1)
      simpa [decayRun, h1] using h2
    · have h1 := decay_metric_improve c opt lr e v hdt hlb (Nat.not_lt.mp he) hv
      have h2 := ih { c with best_value := v, not_improved_epoch := 0 } opt lr hdt hlb
        (List.Chain'.tail hchain)
        (by intro p hp
            cases rest with
            | nil => simp at hp
            | cons p2 t =>
              simp only [List.head?_cons, Option.mem_def, Option.some.injEq] at hp
              subst hp
              exact (List.chain'_cons.mp hchain).1)
      simpa [decayRun, h1] using h2

theorem decayRun_append (l1 l2 : List (ℕ × ℚ)) :
    ∀ (c : Controller ℚ) (opt : Optimizer ℚ) (lr : ℚ),
    decayRun c opt lr (l1 ++ l2)
      = decayRun (decayRun c opt lr l1).1 (decayRun c opt lr l1).2.1
          (decayRun c opt lr l1).2.2 l2 := by
  induction l1 with
  | nil => intro c opt lr; simp [decayRun]
  | cons p t ih =>
    intro c opt lr
    obtain ⟨e, v⟩ := p
    simp only [List.cons_append, decayRun]
    exact ih _ _ _

/-- A run of `j` flat non-improving values within the patience window
only advances the not-improved counter. -/
theorem decayRun_flat_block (v : ℚ) (es : List ℕ) :
    ∀ (c : Controller ℚ) (opt : Optimizer ℚ) (lr : ℚ),
    c.decay_type = .metric → c.lower_better = true →
    (∀ e ∈ es, c.decay_start_epoch ≤ e) →
    ¬ v < c.best_value →
    c.not_improved_epoch + es.length ≤ c.decay_patient_epoch →
    decayRun c opt lr (es.map (fun e => (e, v)))
      = ({ c with not_improved_epoch := c.not_improved_epoch + es.length }, opt, lr) := by
  induction es with
  | nil => intro c opt lr _ _ _ _ _; simp [decayRun]
  | cons e t ih =>
    intro c opt lr hdt hlb hall hv hle
    have hcnt : c.not_improved_epoch < c.decay_patient_epoch := by
      simp only [List.length_cons] at hle; omega
    have h1 := decay_metric_patient c opt lr e v hdt hlb
      (hall e (List.mem_cons_self _ _)) hv hcnt
    have h2 := ih { c with not_improved_epoch := c.not_improved_epoch + 1 } opt lr
      hdt hlb (fun e2 he2 => hall e2 (List.mem_cons_of_mem _ he2)) hv
      (by show c.not_improved_epoch + 1 + t.length ≤ c.decay_patient_epoch
          simp only [List.length_cons] at hle; omega)
    simp only [List.map_cons, decayRun, h1, h2]
    congr 2
    simp only [List.length_cons]
    omega

/-- One full plateau period (patience + 1 flat non-improving values):
the counter wraps back to 0 and the rate is decayed exactly once. -/
theorem decayRun_flat_cycle (v : ℚ) (es : List ℕ) (c : Controller ℚ)
    (opt : Optimizer ℚ) (lr : ℚ)
    (hdt : c.decay_type = .metric) (hlb : c.lower_better = true)
    (hall : ∀ e ∈ es, c.decay_start_epoch ≤ e)
    (hv : ¬ v < c.best_value) (hcnt : c.not_improved_epoch = 0)
    (hlen : es.length = c.decay_patient_epoch + 1) :
    decayRun c opt lr (es.map (fun e => (e, v)))
      = ({ c with not_improved_epoch := 0 },
         writeDecay opt (lr * c.decay_rate), lr * c.decay_rate) := by
  obtain ⟨e1, hdrop⟩ : ∃ e1, es.drop c.decay_patient_epoch = [e1] := by
    apply List.length_eq_one.mp
    simp [List.length_drop, hlen]
  set t := es.take c.decay_patient_epoch with ht
  have htake : t.length = c.decay_patient_epoch := by
    rw [ht]; simp [List.length_take, hlen]
  have hsplit : es = t ++ [e1] := by
    rw [ht, ← hdrop]; exact (List.take_append_drop _ _).symm
  have hallt : ∀ e ∈ t, c.decay_start_epoch ≤ e := by
    intro e2 he2
    exact hall e2 (by rw [hsplit]; exact List.mem_append_left _ he2)
  have hblock := decayRun_flat_block v t c opt lr hdt hlb hallt hv
    (by rw [htake, hcnt]; omega)
  have he1 : c.decay_start_epoch ≤ e1 := by
    apply hall
    rw [hsplit]
    exact List.mem_append_right _ (List.mem_singleton_self _)
  have hfinal := decay_metric_decay
    { c with not_improved_epoch := c.not_improved_epoch + t.length }
    opt lr e1 v hdt hlb he1 hv
    (by show ¬ c.not_improved_epoch + t.length < c.decay_patient_epoch
        rw [htake, hcnt]; omega)
  rw [hsplit, List.map_append, decayRun_append, hblock]
  simp only [List.map_cons, List.map_nil, decayRun, hfinal]

/-- `m` consecutive plateau periods decay the rate exactly `m` times and
leave the counter at 0. -/
theorem decayRun_flat_cycles (v : ℚ) :
    ∀ (m : ℕ) (es : List ℕ) (c : Controller ℚ) (opt : Optimizer ℚ) (lr : ℚ),
    c.decay_type = .metric → c.lower_better = true →
    (∀ e ∈ es, c.decay_start_epoch ≤ e) →
    ¬ v < c.best_value → c.not_improved_epoch = 0 →
    es.length = m * (c.decay_patient_epoch + 1) →
    (decayRun c opt lr (es.map (fun e => (e, v)))).1 = { c with not_improved_epoch := 0 }
    ∧ (decayRun c opt lr (es.map (fun e => (e, v)))).2.2 = lr * c.decay_rate ^ m := by
  intro m
  induction m with
  | zero =>
    intro es c opt lr _ _ _ _ hcnt hlen
    have : es = [] := List.eq_nil_of_length_eq_zero (by omega)
    subst this
    constructor
    · simp [decayRun, ← hcnt]
    · simp [decayRun]
  | succ m ih =>
    intro es c opt lr hdt hlb hall hv hcnt hlen
    have hlen2 : (c.decay_patient_epoch + 1) ≤ es.length := by
      rw [hlen]; nlinarith [Nat.succ_le_succ (Nat.zero_le m)]
    have htake : (es.take (c.decay_patient_epoch + 1)).length = c.decay_patient_epoch + 1 := by
      simp [List.length_take]; omega
    have hdroplen : (es.drop (c.decay_patient_epoch + 1)).length = m * (c.decay_patient_epoch + 1) := by
      simp only [List.length_drop, hlen]; ring_nf; omega
    have hcycle := decayRun_flat_cycle v (es.take (c.decay_patient_epoch + 1)) c opt lr
      hdt hlb (fun e2 he2 => hall e2 (List.take_subset _ _ he2)) hv hcnt htake
    have hrest := ih (es.drop (c.decay_patient_epoch + 1))
      { c with not_improved_epoch := 0 } (writeDecay opt (lr * c.decay_rate))
      (lr * c.decay_rate) hdt hlb
      (fun e2 he2 => hall e2 (List.drop_subset _ _ he2)) hv rfl hdroplen
    have hsplit : es.map (fun e => (e, v))
        = (es.take (c.decay_patient_epoch + 1)).map (fun e => (e, v))
          ++ (es.drop (c.decay_patient_epoch + 1)).map (fun e => (e, v)) := by
      rw [← List.map_append, List.take_append_drop]
    rw [hsplit, decayRun_append, hcycle]
    refine ⟨hrest.1, ?_⟩
    rw [hrest.2]
    ring

/-! The C3 claim itself. -/

/-- A metric-plateau controller with the constructor's default
`best_value=10000`, patience 1, decay rate 1/2, decay active from epoch
0. -/
def cMetricEx : Controller ℚ := ⟨1, .metric, 0, 1/2, 1, 0, true, 10000, 1, 0, 0⟩

/-- C3 counterexample: a strictly decreasing metric sequence CAN trigger
a decay — when its values sit above the controller's initial
`best_value` (default 10000), every epoch counts as "not improved" and
the rate is halved once the patience is exhausted. -/
theorem claim_C3_counterexample :
    List.Chain' (fun p q : ℕ × ℚ => q.2 < p.2) [(1, 50000), (1, 40000)]
    ∧ (decayRun cMetricEx optQ0 1 [(1, 50000), (1, 40000)]).2.2 ≠ 1 := by
  constructor
  · norm_num [List.chain'_cons]
  · norm_num [decayRun, decay_lr, cMetricEx, optQ0, writeDecay]

/-- C3 (amended): with `decay_type='metric'` and `lower_better=True`
(i) an improvement updates the best value, resets the not-improved
counter to 0 and leaves the rate alone; (ii) a strictly decreasing
sequence whose first value beats the current best value never changes the
rate; (iii) a flat sequence of `1 + m*(patience+1)` values beating the
best value once, fed at epochs past the start epoch, decays the rate
exactly once per plateau period (`m` times in total) and ends with the
counter reset to 0. -/
theorem claim_C3_amended :
    (∀ (c : Controller ℚ) (opt : Optimizer ℚ) (lr : ℚ) (e : ℕ) (v : ℚ),
      c.decay_type = .metric → c.lower_better = true → c.decay_start_epoch ≤ e →
      v < c.best_value →
      (decay_lr c opt lr e v).1.not_improved_epoch = 0
      ∧ (decay_lr c opt lr e v).1.best_value = v
      ∧ (decay_lr c opt lr e v).2.2 = lr)
    ∧ (∀ (c : Controller ℚ) (opt : Optimizer ℚ) (lr : ℚ) (l : List (ℕ × ℚ)),
      c.decay_type = .metric → c.lower_better = true →
      l.Chain' (fun p q => q.2 < p.2) → (∀ p ∈ l.head?, p.2 < c.best_value) →
      (decayRun c opt lr l).2.2 = lr)
    ∧ (∀ (c : Controller ℚ) (opt : Optimizer ℚ) (lr : ℚ) (v : ℚ) (es : List ℕ) (m : ℕ),
      c.decay_type = .metric → c.lower_better = true →
      (∀ e ∈ es, c.decay_start_epoch ≤ e) → v < c.best_value →
      es.length = 1 + m * (c.decay_patient_epoch + 1) →
      (decayRun c opt lr (es.map (fun e => (e, v)))).2.2 = lr * c.decay_rate ^ m
      ∧ (decayRun c opt lr (es.map (fun e => (e, v)))).1.not_improved_epoch = 0) := by
  refine ⟨?_, ?_, ?_⟩
  · intro c opt lr e v hdt hlb he hv
    rw [decay_metric_improve c opt lr e v hdt hlb he hv]
    exact ⟨rfl, rfl, rfl⟩
  · intro c opt lr l hdt hlb hchain hhead
    exact (decayRun_strictDesc l c opt lr hdt hlb hchain hhead).1
  · intro c opt lr v es m hdt hlb hall hv hlen
    cases es with
    | nil => simp only [List.length_nil] at hlen; omega
    | cons e0 rest =>
      have h1 := decay_metric_improve c opt lr e0 v hdt hlb
        (hall e0 (List.mem_cons_self _ _)) hv
      have hrest := decayRun_flat_cycles v m rest
        { c with best_value := v, not_improved_epoch := 0 } opt lr hdt hlb
        (fun e2 he2 => hall e2 (List.mem_cons_of_mem _ he2))
        (lt_irrefl v) rfl
        (by show rest.length = m * (c.decay_patient_epoch + 1)
            simp only [List.length_cons] at hlen; omega)
      simp only [List.map_cons, decayRun, h1]
      exact ⟨hrest.2, by rw [hrest.1]⟩

/-- Witness for C3: an improvement resets the counter; a strictly
decreasing sequence below the best value keeps the rate at 1; 5 flat
values (1 improvement + 2 plateau periods of patience 1) halve the rate
twice and leave the counter at 0. -/
theorem claim_C3_witness :
    ((decay_lr cMetricEx optQ0 1 1 5).1.not_improved_epoch = 0
     ∧ (decay_lr cMetricEx optQ0 1 1 5).1.best_value = 5
     ∧ (decay_lr cMetricEx optQ0 1 1 5).2.2 = 1)
    ∧ (decayRun cMetricEx optQ0 1 [(1, 5000), (1, 4000), (1, 3000)]).2.2 = 1
    ∧ (decayRun cMetricEx optQ0 1 ([1, 1, 1, 1, 1].map (fun e => (e, (5 : ℚ))))).2.2
        = 1 * cMetricEx.decay_rate ^ 2
    ∧ (decayRun cMetricEx optQ0 1 ([1, 1, 1, 1, 1].map (fun e => (e, (5 : ℚ))))).1.not_improved_epoch = 0 := by
  refine ⟨claim_C3_amended.1 cMetricEx optQ0 1 1 5 rfl rfl (by decide) (by decide), ?_, ?_, ?_⟩
  · exact claim_C3_amended.2.1 cMetricEx optQ0 1 [(1, 5000), (1, 4000), (1, 3000)]
      rfl rfl (by norm_num [List.chain'_cons])
      (by intro p hp
          simp only [List.head?_cons, Option.mem_def, Option.some.injEq] at hp
          subst hp; norm_num [cMetricEx])
  · exact (claim_C3_amended.2.2 cMetricEx optQ0 1 5 [1, 1, 1, 1, 1] 2
      rfl rfl (by decide) (by decide) (by decide)).1
  · exact (claim_C3_amended.2.2 cMetricEx optQ0 1 5 [1, 1, 1, 1, 1] 2
      rfl rfl (by decide) (by decide) (by decide)).2

/-! ## Claim C4 -/

/-- A non-Adadelta optimizer over the reals. -/
noncomputable def optR0 : Optimizer ℝ := ⟨false, [⟨7, 9, 11⟩]⟩

/-- The controller `Controller.__init__` builds for
`learning_rate=1, decay_type='warmup', decay_start_epoch=1,
decay_rate=1/2, decay_patient_epoch=1, lower_better=True,
best_value=10000, model_size=1, warmup_start_learning_rate=0,
warmup_nsteps=4, factor=1` (so `lr_init = 1 * 1 ** -0.5 = 1`). -/
noncomputable def cWarmEx : Controller ℝ := ⟨1, .warmup, 1, 1/2, 1, 0, true, 10000, 1, 0, 4⟩

/-- C4: with `warmup_start_learning_rate == 0` the warm-up schedule is
`lr_init * min(step ** -0.5, step * warmup_nsteps ** -1.5)` at every
step, and at `step = warmup_nsteps` both arguments of `min` coincide, so
the rate is exactly `lr_init * warmup_nsteps ** -0.5`. -/
theorem claim_C4 (c : Controller ℝ) (opt : Optimizer ℝ) (lr : ℝ) (step : ℕ)
    (h0 : c.warmup_start_lr = 0) (hN : 0 < c.warmup_nsteps) (hs : 1 ≤ step) :
    (warmup_lr c opt lr step).2
      = c.lr_init * min ((step : ℝ) ^ (-(1 : ℝ) / 2)) ((step : ℝ) * (c.warmup_nsteps : ℝ) ^ (-(3 : ℝ) / 2))
    ∧ (step = c.warmup_nsteps →
        (warmup_lr c opt lr step).2 = c.lr_init * (c.warmup_nsteps : ℝ) ^ (-(1 : ℝ) / 2)) := by
  have hbranch : ¬ c.warmup_start_lr > 0 := by rw [h0]; exact lt_irrefl 0
  constructor
  · simp [warmup_lr, hbranch]
  · intro hstep
    subst hstep
    have hpos : (0 : ℝ) < (c.warmup_nsteps : ℝ) := by exact_mod_cast hN
    have key : (c.warmup_nsteps : ℝ) * (c.warmup_nsteps : ℝ) ^ (-(3 : ℝ) / 2)
        = (c.warmup_nsteps : ℝ) ^ (-(1 : ℝ) / 2) := by
      calc (c.warmup_nsteps : ℝ) * (c.warmup_nsteps : ℝ) ^ (-(3 : ℝ) / 2)
          = (c.warmup_nsteps : ℝ) ^ (1 : ℝ) * (c.warmup_nsteps : ℝ) ^ (-(3 : ℝ) / 2) := by
            rw [Real.rpow_one]
        _ = (c.warmup_nsteps : ℝ) ^ ((1 : ℝ) + -(3 : ℝ) / 2) := by
            rw [← Real.rpow_add hpos]
        _ = (c.warmup_nsteps : ℝ) ^ (-(1 : ℝ) / 2) := by norm_num
    simp [warmup_lr, hbranch, key, min_self]

/-- Witness for C4: the constructor at the arguments above yields
`cWarmEx`, and at `step = warmup_nsteps = 4` the schedule collapses to
`lr_init * 4 ** -0.5`. -/
theorem claim_C4_witness :
    mkController 1 DecayType.warmup 1 (1/2) 1 true 10000 1 0 4 1 = some cWarmEx
    ∧ (warmup_lr cWarmEx optR0 5 4).2
        = cWarmEx.lr_init * min (((4 : ℕ) : ℝ) ^ (-(1 : ℝ) / 2)) (((4 : ℕ) : ℝ) * (cWarmEx.warmup_nsteps : ℝ) ^ (-(3 : ℝ) / 2))
    ∧ (warmup_lr cWarmEx optR0 5 4).2 = cWarmEx.lr_init * (cWarmEx.warmup_nsteps : ℝ) ^ (-(1 : ℝ) / 2) := by
  have h := claim_C4 cWarmEx optR0 5 4 rfl (by decide) (by decide)
  refine ⟨?_, h.1, h.2 rfl⟩
  simp [mkController, cWarmEx, Real.one_rpow]

/-! ## Claim C5 -/

/-- An Adadelta optimizer over the reals. -/
noncomputable def optRAda : Optimizer ℝ := ⟨true, [⟨7, 9, 11⟩]⟩

/-- A controller in the linear warm-up branch: `learning_rate=2`,
`warmup_start_learning_rate=1` (so `lr_init = 1`), `warmup_nsteps=4`. -/
noncomputable def cLinEx : Controller ℝ := ⟨2, .warmup, 1, 1/2, 1, 0, true, 10000, 1, 1, 4⟩

/-- C5 counterexample: `warmup_lr` has no Adadelta case — for an
Adadelta optimizer it writes the newly computed rate (3/2 here) into the
`lr` field and leaves `eps` untouched (still 9), contradicting the
claim that the value goes into `eps` instead of `lr`. -/
theorem claim_C5_counterexample :
    optRAda.isAdadelta = true
    ∧ (warmup_lr cLinEx optRAda 7 2).2 = 3 / 2
    ∧ (warmup_lr cLinEx optRAda 7 2).1.param_groups = [⟨3 / 2, 9, 11⟩]
    ∧ (3 : ℝ) / 2 ≠ 9 := by
  refine ⟨rfl, ?_, ?_, by norm_num⟩
  · norm_num [warmup_lr, cLinEx]
  · norm_num [warmup_lr, cLinEx, optRAda]

/-- C5 (amended): a full frame characterisation of both methods.  For
`decay_lr` the six implications cover every input (epoch before the
start; metric improvement / within patience / patience exhausted past
the start; epoch policy past the start; warm-up policy past the start):
the optimizer is untouched on every non-decaying call, and exactly the
`writeDecay` update — new rate into `eps` for Adadelta, into `lr`
otherwise, no other field changed — happens when a decay fires.
`warmup_lr` always writes the new rate into the `lr` field of every
group, with no Adadelta exception and no other field changed. -/
theorem claim_C5_amended :
    (∀ (c : Controller ℚ) (opt : Optimizer ℚ) (lr : ℚ) (e : ℕ) (v : ℚ),
      (e < c.decay_start_epoch → (decay_lr c opt lr e v).2.1 = opt)
      ∧ (c.decay_type = .metric → c.decay_start_epoch ≤ e →
          (if c.lower_better then v else -v) < c.best_value →
          (decay_lr c opt lr e v).2.1 = opt)
      ∧ (c.decay_type = .metric → c.decay_start_epoch ≤ e →
          ¬ (if c.lower_better then v else -v) < c.best_value →
          c.not_improved_epoch < c.decay_patient_epoch →
          (decay_lr c opt lr e v).2.1 = opt)
      ∧ (c.decay_type = .metric → c.decay_start_epoch ≤ e →
          ¬ (if c.lower_better then v else -v) < c.best_value →
          ¬ c.not_improved_epoch < c.decay_patient_epoch →
          (decay_lr c opt lr e v).2.1 = writeDecay opt (lr * c.decay_rate))
      ∧ (c.decay_type = .epoch → c.decay_start_epoch ≤ e →
          (decay_lr c opt lr e v).2.1 = writeDecay opt (lr * c.decay_rate))
      ∧ (c.decay_type = .warmup → (decay_lr c opt lr e v).2.1 = opt))
    ∧ (∀ (c : Controller ℝ) (opt : Optimizer ℝ) (lr : ℝ) (s : ℕ),
      (warmup_lr c opt lr s).1
        = { opt with param_groups := opt.param_groups.map (fun g => { g with lr := (warmup_lr c opt lr s).2 }) }) := by
  constructor
  · intro c opt lr e v
    refine ⟨?_, ?_, ?_, ?_, ?_, ?_⟩
    · intro he
      simp only [decay_lr, if_pos he]
      split <;> split <;> rfl
    · intro hdt he hw
      simp [decay_lr, hdt, Nat.not_lt.mpr he, hw]
    · intro hdt he hw hcnt
      simp [decay_lr, hdt, Nat.not_lt.mpr he, hw, hcnt]
    · intro hdt he hw hcnt
      simp [decay_lr, hdt, Nat.not_lt.mpr he, hw, hcnt]
    · intro hdt he
      rw [decay_lr_epoch_ge c opt lr e v hdt he]
    · intro hdt
      by_cases he : e < c.decay_start_epoch
      · simp only [decay_lr, if_pos he, hdt]
        split <;> split <;> rfl
      · simp [decay_lr, hdt, he]
  · intro c opt lr s
    rfl

/-- Witness for C5: the optimizer is untouched on an improving metric
call and on a within-patience metric call; a patience-exhausted metric
call and an epoch-decay call perform exactly the `writeDecay` update;
a warm-up call rewrites every group's `lr`. -/
theorem claim_C5_witness :
    (decay_lr cMetricEx optQ0 1 1 5).2.1 = optQ0
    ∧ (decay_lr cMetricEx optQ0 1 1 50000).2.1 = optQ0
    ∧ (decay_lr { cMetricEx with not_improved_epoch := 1 } optQ0 1 1 50000).2.1
        = writeDecay optQ0 (1 * cMetricEx.decay_rate)
    ∧ (decay_lr cEpochEx optQ0 1 2 0).2.1 = optQ0
    ∧ (decay_lr cEpochEx optQ0 1 5 0).2.1 = writeDecay optQ0 (1 * cEpochEx.decay_rate)
    ∧ (warmup_lr cLinEx optR0 7 2).1
        = { optR0 with param_groups := optR0.param_groups.map (fun g => { g with lr := (warmup_lr cLinEx optR0 7 2).2 }) } :=
  ⟨(claim_C5_amended.1 cMetricEx optQ0 1 1 5).2.1 rfl (by decide) (by decide),
   (claim_C5_amended.1 cMetricEx optQ0 1 1 50000).2.2.1 rfl (by decide) (by decide) (by decide),
   (claim_C5_amended.1 { cMetricEx with not_improved_epoch := 1 } optQ0 1 1 50000).2.2.2.1
     rfl (by decide) (by decide) (by decide),
   (claim_C5_amended.1 cEpochEx optQ0 1 2 0).1 (by decide),
   (claim_C5_amended.1 cEpochEx optQ0 1 5 0).2.2.2.2.1 rfl (by decide),
   claim_C5_amended.2 cLinEx optR0 7 2⟩

/-! ## Claim C9 -/

/-- The controller `Controller.__init__` builds for `learning_rate=1`,
`warmup_start_learning_rate=2` (so `lr_init = 2`), `warmup_nsteps=1`:
both constructor arguments the claim constrains (`learning_rate` and
`decay_rate`) are positive. -/
noncomputable def cNegEx : Controller ℝ := ⟨1, .epoch, 1, 1/2, 1, 0, true, 10000, 2, 2, 1⟩

/-- C9 counterexample: a legally constructed controller whose linear
warm-up branch returns the NEGATIVE rate `(1-2)/1*3 + 2 = -1` at step 3,
refuting "every learning rate returned by warmup_lr is strictly
positive". -/
theorem claim_C9_counterexample :
    mkController 1 DecayType.epoch 1 (1/2) 1 true 10000 1 2 1 1 = some cNegEx
    ∧ (warmup_lr cNegEx optR0 1 3).2 < 0 := by
  constructor
  · simp [mkController, cNegEx]
  · norm_num [warmup_lr, cNegEx]

/-- C9 (amended): `decay_lr` preserves positivity whenever the incoming
rate and the decay rate are positive; `warmup_lr` returns a positive
rate in the inverse-square-root branch at every step at least 1, and in
the linear branch at every step up to `warmup_nsteps`; past
`warmup_nsteps` the linear branch can go non-positive (see the
counterexample). -/
theorem claim_C9_amended :
    (∀ (c : Controller ℚ) (opt : Optimizer ℚ) (lr : ℚ) (e : ℕ) (v : ℚ),
      0 < lr → 0 < c.decay_rate → 0 < (decay_lr c opt lr e v).2.2)
    ∧ (∀ (c : Controller ℝ) (opt : Optimizer ℝ) (lr : ℝ) (s : ℕ),
      c.warmup_start_lr = 0 → 0 < c.lr_init → 0 < c.warmup_nsteps → 1 ≤ s →
      0 < (warmup_lr c opt lr s).2)
    ∧ (∀ (c : Controller ℝ) (opt : Optimizer ℝ) (lr : ℝ) (s : ℕ),
      0 < c.warmup_start_lr → c.lr_init = c.warmup_start_lr → 0 < c.lr_max →
      0 < c.warmup_nsteps → s ≤ c.warmup_nsteps →
      0 < (warmup_lr c opt lr s).2) := by
  refine ⟨?_, ?_, ?_⟩
  · intro c opt lr e v hlr hrate
    simp only [decay_lr]
    repeat' split
    all_goals first | exact hlr | exact mul_pos hlr hrate
  · intro c opt lr s h0 hinit hN hs
    have hbr : ¬ c.warmup_start_lr > 0 := by rw [h0]; exact lt_irrefl 0
    simp only [warmup_lr, if_neg hbr]
    have hspos : (0 : ℝ) < (s : ℝ) := by exact_mod_cast hs
    have hNpos : (0 : ℝ) < (c.warmup_nsteps : ℝ) := by exact_mod_cast hN
    exact mul_pos hinit (lt_min (Real.rpow_pos_of_pos hspos _)
      (mul_pos hspos (Real.rpow_pos_of_pos hNpos _)))
  · intro c opt lr s hw hinit hmax hN hs
    simp only [warmup_lr, if_pos hw]
    rw [hinit]
    have hNpos : (0 : ℝ) < (c.warmup_nsteps : ℝ) := by exact_mod_cast hN
    have hs' : (s : ℝ) ≤ (c.warmup_nsteps : ℝ) := by exact_mod_cast hs
    have hs0 : (0 : ℝ) ≤ (s : ℝ) := Nat.cast_nonneg s
    have hrw : (c.lr_max - c.warmup_start_lr) / (c.warmup_nsteps : ℝ) * (s : ℝ) + c.warmup_start_lr
        = ((c.lr_max - c.warmup_start_lr) * (s : ℝ) + c.warmup_start_lr * (c.warmup_nsteps : ℝ)) / (c.warmup_nsteps : ℝ) := by
      field_simp
    rw [hrw]
    apply div_pos ?_ hNpos
    rcases le_or_lt c.warmup_start_lr c.lr_max with hcase | hcase
    · nlinarith [mul_pos hw hNpos]
    · nlinarith [mul_pos hmax hNpos,
        mul_le_mul_of_nonpos_left hs' (by linarith : c.lr_max - c.warmup_start_lr ≤ 0)]

/-- Witness for C9: a positive decay step, a positive inverse-sqrt
warm-up step, and a positive linear warm-up step within the ramp. -/
theorem claim_C9_witness :
    0 < (decay_lr cEpochEx optQ0 1 5 0).2.2
    ∧ 0 < (warmup_lr cWarmEx optR0 1 4).2
    ∧ 0 < (warmup_lr cLinEx optR0 1 2).2 :=
  ⟨claim_C9_amended.1 cEpochEx optQ0 1 5 0 (by norm_num) (by norm_num [cEpochEx]),
   claim_C9_amended.2.1 cWarmEx optR0 1 4 rfl (by norm_num [cWarmEx]) (by decide) (by decide),
   claim_C9_amended.2.2 cLinEx optR0 1 2 (by norm_num [cLinEx]) rfl (by norm_num [cLinEx]) (by decide) (by decide)⟩

end NeuralSP
